import Mathlib

set_option maxRecDepth 8000

/-!
Verification of the azfs path-resolution, listing and globbing layer.

Paths and patterns are modelled as `List Char`; byte payloads as `List Nat`.
Backend listing, download and upload calls go to the Azure SDK, which is an
external collaborator: operations that consult it are parametrized by the
backend's behaviour (a function argument), and the SDK side effects on the
store are modelled explicitly.  Errors raised by the Python code are modelled
by `Except AzErr`.
-/

/-- Errors surfaced by the client layer.  `azfsInput` models `AzfsInputError`
(the spec's `InvalidPathError` / `AlreadyExistsError` / `InvalidArgumentError`,
distinguished by message), `resourceNotFound` models the SDK
`ResourceNotFoundError`, `notImplemented` models Python `NotImplementedError`,
`reError` a regex-compilation failure, `badGzip` a gzip decoding failure,
`sdkOther` any other SDK exception, `pyNone` the Python code path that
implicitly returns `None`, and `notModelled` a dispatch to repository code that
is not under src/ (the queue client). -/
inductive AzErr where
  | azfsInput (msg : String)
  | resourceNotFound
  | notImplemented
  | reError
  | badGzip
  | sdkOther
  | pyNone
  | notModelled
deriving DecidableEq, Repr

def blobKind : String := "blob"

def dfsKind : String := "dfs"

def queueKind : String := "queue"

/-- Decoded parts of a storage URL: scheme plus host, the account kind,
the container name, and the object path below the container. -/
structure Decoded where
  url : List Char
  kind : String
  container : List Char
  fpath : List Char
deriving DecidableEq, Repr

def httpsMark : List Char := "https://".data

def blobMark : List Char := ".blob.".data

def dfsMark : List Char := ".dfs.".data

def queueMark : List Char := ".queue.".data

def msgBadUrl : String := "url format is incorrect"

def msgBadHost : String := "account kind is incorrect"

def msgNoContainer : String := "container or blob name is not found"

instance {ε α : Type} [DecidableEq ε] [DecidableEq α] : DecidableEq (Except ε α) := by
  intro a b
  cases a <;> cases b
  case error.error e f => exact if h : e = f then .isTrue (by rw [h]) else .isFalse (by simp [h])
  case error.ok e x => exact .isFalse (by simp)
  case ok.error x e => exact .isFalse (by simp)
  case ok.ok x y => exact if h : x = y then .isTrue (by rw [h]) else .isFalse (by simp [h])

/-- Does `needle` occur as a contiguous run inside `hay`? -/
def containsSeq (needle : List Char) : List Char → Bool
  | [] => needle.isPrefixOf []
  | c :: cs => needle.isPrefixOf (c :: cs) || containsSeq needle cs

/-- Backend-kind detection: a fixed ordered substring test on the host. -/
def hostKind (host : List Char) : Option String :=
  if containsSeq blobMark host then some blobKind
  else if containsSeq dfsMark host then some dfsKind
  else if containsSeq queueMark host then some queueKind
  else none

/-- Split a character list on `/` separators (every separator splits; a
trailing separator yields a final empty segment). -/
def splitSlash : List Char → List (List Char)
  | [] => [[]]
  | c :: cs =>
    if c = '/' then [] :: splitSlash cs
    else
      match splitSlash cs with
      | [] => [[c]]
      | s :: rest => (c :: s) :: rest

/-- Join segments with `/` separators. -/
def joinSlash : List (List Char) → List Char
  | [] => []
  | [s] => s
  | s :: rest => s ++ '/' :: joinSlash rest

/-- Modelled from the spec: `BlobPathDecoder` (azfs/utils.py, not included
under src/).  Splits the URL into scheme+host, then splits the remaining path
on `/` into `[container, ...object_segments]`; the object path is the join of
the object segments; fails with `InvalidPathError` when there are fewer than
two path segments after the host or when the host matches no known
backend-kind substring (`.blob.`, `.dfs.`, `.queue.`, first match wins). -/
def decodePath (p : List Char) : Except AzErr Decoded :=
  if httpsMark.isPrefixOf p then
    let rest := p.drop httpsMark.length
    let host := rest.takeWhile (fun c => c ≠ '/')
    match hostKind host with
    | none => .error (.azfsInput msgBadHost)
    | some k =>
      match rest.drop host.length with
      | '/' :: pathRest =>
        match splitSlash pathRest with
        | [] => .error (.azfsInput msgNoContainer)
        | cont :: objSegs =>
          if objSegs = [] then .error (.azfsInput msgNoContainer)
          else .ok ⟨httpsMark ++ host, k, cont, joinSlash objSegs⟩
      | _ => .error (.azfsInput msgNoContainer)
  else .error (.azfsInput msgBadUrl)

/-- Characters excluded by the root-folder character class `[^\*.]`. -/
def rootClassExcluded (c : Char) : Bool := c = '*' || c = '.'

/-- Greedy backtracking search of `re.match` for the pattern
`([^\*.]+)/(.*)`: the largest index `i` in `[1, n]` such that the character at
`i` is `/` (the characters before `i` lie in the class by choice of `n`). -/
def rootIdx (fp : List Char) : Nat → Option Nat
  | 0 => none
  | Nat.succ i =>
    if fp.get? (i + 1) = some '/' then some (i + 1) else rootIdx fp i

/-- The `root_folder` extraction of `AzFileClient.glob`
(src/azfs/az_file_client.py lines 604-612):
`re.match(r"(?P<root_folder>[^\*.]+)/(?P<folders>.*)", file_path)`, returning
the greedy (longest) group when the match succeeds. -/
def rootFolder (fp : List Char) : Option (List Char) :=
  (rootIdx fp (fp.takeWhile (fun c => !rootClassExcluded c)).length).map
    (fun i => fp.take i)

example : rootFolder "root_folder/*.csv".data = some "root_folder".data := by decide

example : rootFolder "a/b/c.csv".data = some "a/b".data := by decide

example : rootFolder "a.b/c*".data = none := by decide

example : rootFolder "*.csv".data = none := by decide

example : decodePath "https://testazfs.blob.core.windows.net/test_container/test1.csv".data =
    .ok ⟨"https://testazfs.blob.core.windows.net".data, blobKind,
      "test_container".data, "test1.csv".data⟩ := by decide

/-- The tail of the inserted wildcard text after its opening parenthesis. -/
def starSeqTail : List Char := ['[', '^', '/', ']', ')', '*', '?']

/-- The replacement text inserted for each `*`:
`pattern_path.replace('*', '([^/])*?')`. -/
def starSeq : List Char := '(' :: starSeqTail

example : starSeq = "([^/])*?".data := by decide

/-- `str.replace("*", "([^/])*?")` from `AzFileClient.glob`
(src/azfs/az_file_client.py line 618). -/
def replaceStar : List Char → List Char
  | [] => []
  | c :: p => (if c = '*' then starSeq else [c]) ++ replaceStar p

/-- Tokens of the regular-expression fragment produced by `glob`:
a literal character, `.` (any character except newline), the group
`([^/])*?` (any run of non-separator characters), and the `$` anchor. -/
inductive RTok where
  | lit (c : Char)
  | dot
  | starNS
  | endAnchor
deriving DecidableEq, Repr

/-- Characters that carry regular-expression syntax not modelled by the
fragment; `re.compile` is modelled only away from them. -/
def regexSpecial : List Char := "()[]{}?+|^\\".data

/-- Modelled from the spec: `re.compile` (Python standard library, external to
the repository), restricted to the fragment `glob` produces: literals, `.`,
the inserted `([^/])*?` groups and `$`; any other metacharacter makes the
parse fail. -/
def parseRegex : List Char → Option (List RTok)
  | [] => some []
  | '(' :: '[' :: '^' :: '/' :: ']' :: ')' :: '*' :: '?' :: rest =>
    (parseRegex rest).map (RTok.starNS :: ·)
  | '.' :: rest => (parseRegex rest).map (RTok.dot :: ·)
  | '$' :: rest => (parseRegex rest).map (RTok.endAnchor :: ·)
  | c :: rest =>
    if decide (c ∈ regexSpecial) then none else (parseRegex rest).map (RTok.lit c :: ·)

/-- The suffixes of a string reachable by consuming a (possibly empty) run of
characters other than `/` from its front, longest subject first. -/
def suffixesNS : List Char → List (List Char)
  | [] => [[]]
  | x :: s => (x :: s) :: (if x = '/' then [] else suffixesNS s)

/-- Matching of the token list against a subject string, anchored at the
start as `re.match` is; `$` accepts the end of the subject or a position
before a final newline; `.` matches any character except newline; the
`([^/])*?` group matches any run of characters other than `/` (whether a
match exists does not depend on greediness). -/
def rmatch : List RTok → List Char → Bool
  | [], _ => true
  | RTok.endAnchor :: ts, s => (decide (s = []) || decide (s = ['\n'])) && rmatch ts s
  | RTok.lit c :: ts, s =>
    match s with
    | [] => false
    | x :: s' => decide (x = c) && rmatch ts s'
  | RTok.dot :: ts, s =>
    match s with
    | [] => false
    | x :: s' => decide (x ≠ '\n') && rmatch ts s'
  | RTok.starNS :: ts, s => (suffixesNS s).any (fun s' => rmatch ts s')

/-- Spec-side matcher for a glob pattern against a full string: each `*`
matches any run of characters other than the separator `/` (never across a
segment boundary), `.` matches any single character, and every other
character matches itself; the match covers the whole subject. -/
def wildcardMatch : List Char → List Char → Bool
  | [], s => decide (s = [])
  | c :: p, s =>
    if c = '*' then (suffixesNS s).any (fun s' => wildcardMatch p s')
    else
      match s with
      | [] => false
      | x :: s' => (if c = '.' then true else decide (x = c)) && wildcardMatch p s'

/-- Token translation of a pattern: `*` to the non-slash wildcard, `.` to the
any-character token, anything else to a literal. -/
def toks : List Char → List RTok
  | [] => []
  | c :: p =>
    (if c = '*' then RTok.starNS else if c = '.' then RTok.dot else RTok.lit c) :: toks p

/-- A pattern character the embedding covers exactly: `*`, `.`, or a
character free of unmodelled regex syntax (and not `$` or a newline). -/
def patOKb (c : Char) : Bool :=
  c = '*' || c = '.' || (!decide (c ∈ regexSpecial) && !decide (c = '$') && !decide (c = '\n'))

def msgNoStar : String := "no any `*` in the `pattern_path`"

def msgRootErr : String :=
  "Cannot use `*` in root_folder under a container. Accepted format is (?P<root_folder>[^\\*.]+)/(?P<folders>.*)"

/-- `base_path = f"{url}/{container_name}/"` (src/azfs/az_file_client.py line 614). -/
def basePathOf (url container : List Char) : List Char :=
  url ++ '/' :: (container ++ ['/'])

/-- `AzFileClient.glob` (src/azfs/az_file_client.py lines 548-625), with the
backend listing call abstracted as `lsB base_path root_folder`: reject a
pattern without `*`; decode; extract the root folder (rejecting when the
`([^\*.]+)/` match fails); list under the root; for blob and dfs kinds filter
the absolutized listing by the compiled pattern `pattern.replace('*',
'([^/])*?') + '$'`; `NotImplementedError` for the queue kind. -/
def glob (lsB : List Char → List Char → List (List Char)) (pat : List Char) :
    Except AzErr (List (List Char)) :=
  if '*' ∈ pat then
    match decodePath pat with
    | .error e => .error e
    | .ok d =>
      match rootFolder d.fpath with
      | none => .error (.azfsInput msgRootErr)
      | some root =>
        let basePath := basePathOf d.url d.container
        let fileList := lsB basePath root
        if d.kind = dfsKind ∨ d.kind = blobKind then
          match parseRegex (replaceStar pat ++ ['$']) with
          | none => .error .reError
          | some ts =>
            .ok ((fileList.map (fun f => basePath ++ f)).filter (fun f => rmatch ts f))
        else if d.kind = queueKind then .error .notImplemented
        else .error .pyNone
  else .error (.azfsInput msgNoStar)

example : glob
    (fun _ _ => ["root_folder/test1.csv".data, "root_folder/test2.json".data,
      "root_folder/sub/c.csv".data])
    "https://testazfs.blob.core.windows.net/test_container/root_folder/*.csv".data =
    .ok ["https://testazfs.blob.core.windows.net/test_container/root_folder/test1.csv".data] := by
  decide

example : glob
    (fun _ _ => ["root_folder/test1.csv".data, "root_folder/sub/c.csv".data])
    "https://testazfs.blob.core.windows.net/test_container/root_folder/*/*.csv".data =
    .ok ["https://testazfs.blob.core.windows.net/test_container/root_folder/sub/c.csv".data] := by
  decide

example : glob (fun _ _ => [])
    "https://testazfs.blob.core.windows.net/test_container/*".data =
    .error (.azfsInput msgRootErr) := by decide

example : glob (fun _ _ => [])
    "https://testazfs.blob.core.windows.net/test_container/test1.csv".data =
    .error (.azfsInput msgNoStar) := by decide


/-! ### Lemmas: the compiled pattern parses to the token translation -/

theorem parseRegex_starSeq (X : List Char) :
    parseRegex (starSeq ++ X) = (parseRegex X).map (RTok.starNS :: ·) := rfl

theorem parseRegex_dot (X : List Char) :
    parseRegex ('.' :: X) = (parseRegex X).map (RTok.dot :: ·) := rfl

theorem parseRegex_dollar (X : List Char) :
    parseRegex ('$' :: X) = (parseRegex X).map (RTok.endAnchor :: ·) := rfl

theorem parseRegex_lit (c : Char) (X : List Char) (h2 : c ≠ '.') (h3 : c ≠ '$')
    (h4 : c ∉ regexSpecial) :
    parseRegex (c :: X) = (parseRegex X).map (RTok.lit c :: ·) := by
  have h1 : c ≠ '(' := by
    intro h
    rw [h] at h4
    simp [regexSpecial] at h4
  rw [parseRegex.eq_def]
  split
  · simp_all
  · rename_i heq
    rw [List.cons_eq_cons] at heq
    exact absurd heq.1 h1
  · rename_i heq
    rw [List.cons_eq_cons] at heq
    exact absurd heq.1 h2
  · rename_i heq
    rw [List.cons_eq_cons] at heq
    exact absurd heq.1 h3
  · rename_i c' rest' _ _ _ heq
    rw [List.cons_eq_cons] at heq
    obtain ⟨hc', hr'⟩ := heq
    subst hc'
    subst hr'
    rw [if_neg (by simpa using h4)]

theorem toks_cons (c : Char) (p : List Char) :
    toks (c :: p) =
      (if c = '*' then RTok.starNS else if c = '.' then RTok.dot else RTok.lit c) :: toks p := rfl

/-- A `patOKb` character other than `*` and `.` satisfies all the side
conditions of the literal parse step. -/
theorem patOKb_lit {c : Char} (hc : patOKb c = true) (h1 : c ≠ '*') (h2 : c ≠ '.') :
    c ≠ '$' ∧ c ∉ regexSpecial := by
  simp only [patOKb, Bool.or_eq_true, Bool.and_eq_true, Bool.not_eq_true',
    decide_eq_true_eq, decide_eq_false_iff_not] at hc
  rcases hc with (hc | hc) | hc
  · exact absurd hc h1
  · exact absurd hc h2
  · exact ⟨hc.1.2, hc.1.1⟩

theorem parseRegex_replaceStar (pat : List Char) (h : ∀ c ∈ pat, patOKb c = true) :
    parseRegex (replaceStar pat ++ ['$']) = some (toks pat ++ [RTok.endAnchor]) := by
  induction pat with
  | nil => decide
  | cons c p ih =>
    have hc := h c (List.mem_cons_self c p)
    have hp : ∀ x ∈ p, patOKb x = true := fun x hx => h x (List.mem_cons_of_mem c hx)
    by_cases hstar : c = '*'
    · subst hstar
      have hrep : replaceStar ('*' :: p) = starSeq ++ replaceStar p := by
        simp [replaceStar]
      rw [hrep, toks_cons, if_pos rfl, List.append_assoc, parseRegex_starSeq, ih hp]
      rfl
    · have hrep : replaceStar (c :: p) = c :: replaceStar p := by
        simp [replaceStar, hstar]
      by_cases hdot : c = '.'
      · subst hdot
        rw [hrep, toks_cons, if_neg hstar, if_pos rfl, List.cons_append, parseRegex_dot, ih hp]
        rfl
      · obtain ⟨hdollar, hspec⟩ := patOKb_lit hc hstar hdot
        rw [hrep, toks_cons, if_neg hstar, if_neg hdot, List.cons_append,
          parseRegex_lit c _ hdot hdollar hspec, ih hp]
        rfl

/-! ### Lemmas: the compiled tokens match exactly as the wildcard matcher -/

theorem rmatch_nil (s : List Char) : rmatch [] s = true := rfl

theorem rmatch_anchor (ts : List RTok) (s : List Char) :
    rmatch (RTok.endAnchor :: ts) s =
      ((decide (s = []) || decide (s = ['\n'])) && rmatch ts s) := rfl

theorem rmatch_lit_nil (c : Char) (ts : List RTok) : rmatch (RTok.lit c :: ts) [] = false := rfl

theorem rmatch_lit_cons (c : Char) (ts : List RTok) (x : Char) (s : List Char) :
    rmatch (RTok.lit c :: ts) (x :: s) = (decide (x = c) && rmatch ts s) := rfl

theorem rmatch_dot_nil (ts : List RTok) : rmatch (RTok.dot :: ts) [] = false := rfl

theorem rmatch_dot_cons (ts : List RTok) (x : Char) (s : List Char) :
    rmatch (RTok.dot :: ts) (x :: s) = (decide (x ≠ '\n') && rmatch ts s) := rfl

theorem rmatch_star (ts : List RTok) (s : List Char) :
    rmatch (RTok.starNS :: ts) s = (suffixesNS s).any (fun s' => rmatch ts s') := rfl

theorem wildcardMatch_nil (s : List Char) : wildcardMatch [] s = decide (s = []) := rfl

theorem wildcardMatch_cons (c : Char) (p : List Char) (s : List Char) :
    wildcardMatch (c :: p) s =
      (if c = '*' then (suffixesNS s).any (fun s' => wildcardMatch p s')
       else
        match s with
        | [] => false
        | x :: s' => (if c = '.' then true else decide (x = c)) && wildcardMatch p s') := rfl

theorem mem_suffixesNS {s' s : List Char} (h : s' ∈ suffixesNS s) : s' <:+ s := by
  induction s with
  | nil =>
    simp [suffixesNS] at h
    simp [h]
  | cons x t ih =>
    simp only [suffixesNS, List.mem_cons] at h
    rcases h with h | h
    · simp [h]
    · by_cases hx : x = '/'
      · simp [hx] at h
      · simp only [if_neg hx] at h
        exact (ih h).trans (List.suffix_cons x t)

theorem any_congr_on {α : Type} {l : List α} {f g : α → Bool}
    (h : ∀ x ∈ l, f x = g x) : l.any f = l.any g := by
  induction l with
  | nil => rfl
  | cons a l ih =>
    simp only [List.any_cons]
    rw [h a (List.mem_cons_self a l), ih (fun x hx => h x (List.mem_cons_of_mem a hx))]

theorem rmatch_toks_eq (pat : List Char) (hp : ∀ c ∈ pat, patOKb c = true) :
    ∀ s : List Char, '\n' ∉ s →
      rmatch (toks pat ++ [RTok.endAnchor]) s = wildcardMatch pat s := by
  induction pat with
  | nil =>
    intro s hs
    have hne : decide (s = ['\n']) = false := by
      simp only [decide_eq_false_iff_not]
      intro h
      exact hs (h ▸ List.mem_cons_self '\n' [])
    show rmatch (RTok.endAnchor :: []) s = wildcardMatch [] s
    rw [rmatch_anchor, rmatch_nil, wildcardMatch_nil, hne]
    simp
  | cons c p ih =>
    intro s hs
    have hp' : ∀ x ∈ p, patOKb x = true := fun x hx => hp x (List.mem_cons_of_mem c hx)
    rw [toks_cons, List.cons_append, wildcardMatch_cons]
    by_cases hstar : c = '*'
    · subst hstar
      simp only [reduceIte]
      rw [rmatch_star]
      exact any_congr_on (fun s' hmem =>
        ih hp' s' (fun hin => hs ((mem_suffixesNS hmem).subset hin)))
    · by_cases hdot : c = '.'
      · subst hdot
        simp only [reduceIte]
        cases s with
        | nil => simp [rmatch_dot_nil]
        | cons x t =>
          have hx : x ≠ '\n' := fun h => hs (h ▸ List.mem_cons_self x t)
          have ht : '\n' ∉ t := fun h => hs (List.mem_cons_of_mem x h)
          simp [rmatch_dot_cons, hx, ih hp' t ht]
      · simp only [if_neg hstar, if_neg hdot]
        cases s with
        | nil => simp [rmatch_lit_nil]
        | cons x t =>
          have ht : '\n' ∉ t := fun h => hs (List.mem_cons_of_mem x h)
          simp [rmatch_lit_cons, ih hp' t ht]

/-- C1: for a pattern accepted by `glob` (it contains `*`, decodes, and has a
concrete root folder after the container) over a blob or dfs kind, and any
listing the backend returns for the container and root folder, `glob` returns
exactly the listing entries, absolutized by prefixing `{base_url}/{container}/`,
whose absolute path matches the pattern with each `*` confined to a single
path segment (`wildcardMatch`), in listing order.  The pattern is restricted
to characters whose regular-expression reading the embedding models exactly,
and listing entries are newline-free. -/
theorem azfs_glob_matches_wildcard_spec
    (lsB : List Char → List Char → List (List Char)) (pat url : List Char) (kind : String)
    (cont fp root : List Char)
    (hstar : '*' ∈ pat)
    (hdec : decodePath pat = .ok ⟨url, kind, cont, fp⟩)
    (hkind : kind = dfsKind ∨ kind = blobKind)
    (hroot : rootFolder fp = some root)
    (hpat : ∀ c ∈ pat, patOKb c = true)
    (hnl : ∀ e ∈ lsB (basePathOf url cont) root, '\n' ∉ basePathOf url cont ++ e) :
    glob lsB pat =
      .ok (((lsB (basePathOf url cont) root).map (fun f => basePathOf url cont ++ f)).filter
        (fun f => wildcardMatch pat f)) := by
  unfold glob
  rw [if_pos hstar, hdec]
  dsimp only
  rw [hroot]
  dsimp only
  rw [if_pos hkind, parseRegex_replaceStar pat hpat]
  dsimp only
  congr 1
  apply List.filter_congr
  intro x hx
  obtain ⟨e, he, rfl⟩ := List.mem_map.1 hx
  exact rmatch_toks_eq pat hpat _ (hnl e he)

/-! ### Lemmas: characterization of the root-folder extraction -/

theorem rootIdx_eq_none_iff (fp : List Char) (n : Nat) :
    rootIdx fp n = none ↔ ∀ i, 1 ≤ i → i ≤ n → fp.get? i ≠ some '/' := by
  induction n with
  | zero =>
    constructor
    · intro _ i h1 h0
      exact absurd h0 (by omega)
    · intro _
      rfl
  | succ n ih =>
    rw [rootIdx]
    by_cases hc : fp.get? (n + 1) = some '/'
    · rw [if_pos hc]
      constructor
      · intro h
        exact absurd h (by simp)
      · intro hall
        exact absurd hc (hall (n + 1) (by omega) (by omega))
    · rw [if_neg hc, ih]
      constructor
      · intro hall i h1 hle
        rcases Nat.lt_or_ge i (n + 1) with hlt | hge
        · exact hall i h1 (by omega)
        · have heq : i = n + 1 := by omega
          rw [heq]
          exact hc
      · intro hall i h1 hle
        exact hall i h1 (by omega)

theorem rootIdx_eq_some (fp : List Char) (n i : Nat) (h : rootIdx fp n = some i) :
    1 ≤ i ∧ i ≤ n ∧ fp.get? i = some '/' := by
  induction n with
  | zero => simp [rootIdx] at h
  | succ n ih =>
    rw [rootIdx] at h
    by_cases hc : fp.get? (n + 1) = some '/'
    · rw [if_pos hc] at h
      obtain rfl : n + 1 = i := by injection h
      exact ⟨by omega, by omega, hc⟩
    · rw [if_neg hc] at h
      obtain ⟨h1, h2, h3⟩ := ih h
      exact ⟨h1, by omega, h3⟩

theorem take_all_iff_le_takeWhile (p : Char → Bool) (l : List Char) :
    ∀ i, i ≤ l.length → ((∀ c ∈ l.take i, p c = true) ↔ i ≤ (l.takeWhile p).length) := by
  induction l with
  | nil =>
    intro i hi
    have hz : i = 0 := by simpa using hi
    subst hz
    simp
  | cons a l ih =>
    intro i hi
    cases i with
    | zero => simp
    | succ j =>
      rw [List.take_succ_cons, List.takeWhile]
      by_cases hpa : p a = true
      · rw [hpa]
        simp only [List.length_cons, Nat.succ_le_succ_iff, List.mem_cons]
        rw [← ih j (by simpa using hi)]
        constructor
        · intro h c hc
          exact h c (Or.inr hc)
        · intro h c hc
          rcases hc with rfl | hc
          · exact hpa
          · exact h c hc
      · simp only [Bool.not_eq_true] at hpa
        rw [hpa]
        simp only [List.length_nil]
        constructor
        · intro h
          exact absurd (h a (List.mem_cons_self a (l.take j))) (by simp [hpa])
        · intro h
          exact absurd h (by omega)

/-- The acceptance characterization of the root-folder match: it fails exactly
when no position `i ≥ 1` holds a `/` preceded only by characters outside the
class `{*, .}`. -/
theorem rootFolder_none_iff (fp : List Char) :
    rootFolder fp = none ↔
      ∀ i, 1 ≤ i → fp.get? i = some '/' →
        ∃ c ∈ fp.take i, rootClassExcluded c = true := by
  rw [rootFolder, Option.map_eq_none', rootIdx_eq_none_iff]
  constructor
  · intro hall i h1 hslash
    have hlen : i < fp.length := by
      have h2 : fp[i]? = some '/' := by rw [← List.get?_eq_getElem? ]; exact hslash
      obtain ⟨hlt, -⟩ := List.getElem?_eq_some.1 h2
      exact hlt
    by_contra hno
    push_neg at hno
    have hforall : ∀ c ∈ fp.take i, (!rootClassExcluded c) = true := by
      intro c hc
      simp only [Bool.not_eq_true']
      by_contra hcc
      simp only [Bool.not_eq_false] at hcc
      exact absurd hcc (hno c hc)
    have hle := (take_all_iff_le_takeWhile (fun c => !rootClassExcluded c) fp i
      (by omega)).1 hforall
    exact absurd hslash (hall i h1 hle)
  · intro hex i h1 hle hslash
    have hlen : i < fp.length := by
      have h2 : fp[i]? = some '/' := by rw [← List.get?_eq_getElem? ]; exact hslash
      obtain ⟨hlt, -⟩ := List.getElem?_eq_some.1 h2
      exact hlt
    have hforall := (take_all_iff_le_takeWhile (fun c => !rootClassExcluded c) fp i
      (by omega)).2 hle
    obtain ⟨c, hc, hcex⟩ := hex i h1 hslash
    have hcontra := hforall c hc
    simp [hcex] at hcontra

/-- A `*` anywhere in the first path segment after the container makes the
root-folder match fail. -/
theorem star_first_segment_root_none (fp : List Char)
    (h : '*' ∈ fp.takeWhile (fun c => decide (c ≠ '/'))) : rootFolder fp = none := by
  rw [rootFolder_none_iff]
  intro i h1 hslash
  have hslash' : fp[i]? = some '/' := by rw [← List.get?_eq_getElem? ]; exact hslash
  obtain ⟨j, hj⟩ := List.mem_iff_getElem?.1 h
  obtain ⟨hjlt, hjget⟩ := List.getElem?_eq_some.1 hj
  have hpre := List.takeWhile_prefix (l := fp) (p := fun c => decide (c ≠ '/'))
  obtain ⟨t, ht⟩ := hpre
  have hfpj : fp[j]? = some '*' := by
    rw [← ht, List.getElem?_append, if_pos hjlt]
    exact hj
  have hilen : (fp.takeWhile (fun c => decide (c ≠ '/'))).length ≤ i := by
    by_contra hlt
    push_neg at hlt
    have htw : (fp.takeWhile (fun c => decide (c ≠ '/')))[i]? = some '/' := by
      rw [← ht, List.getElem?_append, if_pos hlt] at hslash'
      exact hslash'
    have hmem : '/' ∈ fp.takeWhile (fun c => decide (c ≠ '/')) :=
      List.mem_iff_getElem?.2 ⟨i, htw⟩
    have hne := List.mem_takeWhile_imp hmem
    simp at hne
  refine ⟨'*', ?_, by decide⟩
  apply List.mem_iff_getElem?.2
  refine ⟨j, ?_⟩
  rw [List.getElem?_take, if_pos (by omega)]
  exact hfpj

/-- C2 (amended): with a decodable pattern, `glob` raises `AzfsInputError`
eagerly (independently of the backend listing) in exactly these cases: the
pattern has no `*`, or the root-folder match fails — which happens exactly
when no position `i ≥ 1` of the object path holds a `/` preceded only by
characters other than `*` and `.`; in particular a `*` in the first segment
after the container is always rejected, but a `.` there is rejected too. -/
theorem azfs_glob_invalid_path_classes
    (lsB : List Char → List Char → List (List Char)) (pat url : List Char) (kind : String)
    (cont fp : List Char)
    (hdec : decodePath pat = .ok ⟨url, kind, cont, fp⟩) :
    ('*' ∉ pat → glob lsB pat = .error (.azfsInput msgNoStar))
    ∧ ('*' ∈ pat → rootFolder fp = none → glob lsB pat = .error (.azfsInput msgRootErr))
    ∧ ('*' ∈ pat → rootFolder fp ≠ none → ∀ m, glob lsB pat ≠ .error (.azfsInput m))
    ∧ (rootFolder fp = none ↔ ∀ i, 1 ≤ i → fp.get? i = some '/' →
        ∃ c ∈ fp.take i, rootClassExcluded c = true)
    ∧ ('*' ∈ fp.takeWhile (fun c => decide (c ≠ '/')) → rootFolder fp = none)
    ∧ (('*' ∉ pat ∨ rootFolder fp = none) → ∀ lsB', glob lsB' pat = glob lsB pat) := by
  refine ⟨?_, ?_, ?_, rootFolder_none_iff fp, star_first_segment_root_none fp, ?_⟩
  · intro hstar
    unfold glob
    rw [if_neg hstar]
  · intro hstar hroot
    unfold glob
    rw [if_pos hstar, hdec]
    dsimp only
    rw [hroot]
  · intro hstar hroot m
    obtain ⟨r, hr⟩ := Option.ne_none_iff_exists'.1 hroot
    unfold glob
    rw [if_pos hstar, hdec]
    dsimp only
    rw [hr]
    dsimp only
    split
    · cases hpr : parseRegex (replaceStar pat ++ ['$']) <;> simp
    · split <;> simp
  · intro hcase lsB'
    rcases hcase with h | h
    · unfold glob
      simp only [if_neg h]
    · by_cases hstar : '*' ∈ pat
      · unfold glob
        simp only [if_pos hstar]
        rw [hdec]
        dsimp only
        rw [h]
      · unfold glob
        simp only [if_neg hstar]

/-- Witness for C2: a concrete pattern without `*` is rejected with the
no-wildcard error. -/
theorem azfs_glob_invalid_path_classes_witness :
    decodePath "https://testazfs.blob.core.windows.net/test_container/folder/a_csv".data =
      .ok ⟨"https://testazfs.blob.core.windows.net".data, blobKind,
        "test_container".data, "folder/a_csv".data⟩ ∧
    glob (fun _ _ => [])
      "https://testazfs.blob.core.windows.net/test_container/folder/a_csv".data =
      .error (.azfsInput msgNoStar) :=
  ⟨by decide,
    (azfs_glob_invalid_path_classes (fun _ _ => [])
      "https://testazfs.blob.core.windows.net/test_container/folder/a_csv".data
      "https://testazfs.blob.core.windows.net".data blobKind
      "test_container".data "folder/a_csv".data (by decide)).1 (by decide)⟩

/-- Counterexample to C2 as stated: the pattern
`https://testazfs.blob.core.windows.net/test_container/a.b/c*` contains `*`
and its first path segment after the container (`a.b`) contains no `*`, yet
`glob` rejects it with `AzfsInputError` instead of proceeding to the listing
step, because the root-folder character class also excludes `.`. -/
theorem azfs_glob_rejects_dot_in_first_segment :
    '*' ∈ "https://testazfs.blob.core.windows.net/test_container/a.b/c*".data ∧
    '*' ∉ "a.b/c*".data.takeWhile (fun c => decide (c ≠ '/')) ∧
    decodePath "https://testazfs.blob.core.windows.net/test_container/a.b/c*".data =
      .ok ⟨"https://testazfs.blob.core.windows.net".data, blobKind,
        "test_container".data, "a.b/c*".data⟩ ∧
    glob (fun _ _ => []) "https://testazfs.blob.core.windows.net/test_container/a.b/c*".data =
      .error (.azfsInput msgRootErr) :=
  ⟨by decide, by decide, by decide, by decide⟩

/-- C10: the pattern compilation of `glob` rewrites only the `*` characters;
a `.` keeps its regular-expression meaning and matches any single character:
the pattern `.../root_folder/*.csv` matches and returns the listing entry
`root_folder/test1Xcsv`, which does not literally end in `.csv`. -/
theorem azfs_glob_dot_matches_any_char :
    glob (fun _ _ => ["root_folder/test1Xcsv".data])
      "https://testazfs.blob.core.windows.net/test_container/root_folder/*.csv".data =
      .ok ["https://testazfs.blob.core.windows.net/test_container/root_folder/test1Xcsv".data]
    ∧ ".csv".data.isSuffixOf "root_folder/test1Xcsv".data = false :=
  ⟨by decide, by decide⟩

/-! ### The listing post-filter and `ls` -/

/-- Modelled from the spec: part of `ls_filter` (azfs/utils.py, not included
under src/) — a raw full object path made relative to the request's object
path: the request-path prefix and its following separator are removed. -/
def relName (fp e : List Char) : List Char :=
  if fp = [] then e
  else if (fp ++ ['/']).isPrefixOf e then e.drop (fp.length + 1) else e

/-- Modelled from the spec: part of `ls_filter` (azfs/utils.py, not included
under src/) — an entry nested more than one segment below the request path is
collapsed to its first path segment with a trailing `/` appended; an entry
directly below keeps its own name. -/
def collapse (fp e : List Char) : List Char :=
  let r := relName fp e
  if '/' ∈ r then r.takeWhile (fun c => decide (c ≠ '/')) ++ ['/'] else r

/-- Deduplication keeping the first occurrence, skipping anything already in
`seen`. -/
def dedupKeepFirst (seen : List (List Char)) : List (List Char) → List (List Char)
  | [] => []
  | x :: xs =>
    if x ∈ seen then dedupKeepFirst seen xs else x :: dedupKeepFirst (x :: seen) xs

/-- Modelled from the spec: `ls_filter` (azfs/utils.py, not included under
src/): relative names, with directory entries collapsed to their first path
segment below the request path plus a trailing separator, deduplicated in
order of first occurrence. -/
def ls_filter (file_path_list : List (List Char)) (file_path : List Char) : List (List Char) :=
  dedupKeepFirst [] (file_path_list.map (collapse file_path))

/-- A full object path sitting below the request's object path. -/
def childPath (fp r : List Char) : List Char := if fp = [] then r else fp ++ '/' :: r

/-- `AzFileClient.ls` (src/azfs/az_file_client.py lines 352-396), with the
backend listing call abstracted as `lsB path file_path`: decode, list, then
for blob and dfs kinds post-process through `ls_filter`, optionally
re-prefixing each name with the request path (adding a `/` unless the path
already ends with one); for the queue kind the raw listing is returned. -/
def azLs (lsB : List Char → List Char → List (List Char)) (path : List Char)
    (attachPfx : Bool) : Except AzErr (List (List Char)) :=
  match decodePath path with
  | .error e => .error e
  | .ok d =>
    let file_list := lsB path d.fpath
    if d.kind = dfsKind ∨ d.kind = blobKind then
      let names := ls_filter file_list d.fpath
      if attachPfx then
        .ok (names.map (fun f => (if List.isSuffixOf ['/'] path then path else path ++ ['/']) ++ f))
      else .ok names
    else if d.kind = queueKind then .ok file_list
    else .error .pyNone

example : azLs
    (fun _ _ => ["test1.csv".data, "test2.csv".data, "dir/nested.csv".data])
    "https://testazfs.blob.core.windows.net/test_container/".data false =
    .ok ["test1.csv".data, "test2.csv".data, "dir/".data] := by decide

/-! ### Lemmas: the listing post-filter -/

theorem dedupKeepFirst_sublist (seen l : List (List Char)) :
    List.Sublist (dedupKeepFirst seen l) l := by
  induction l generalizing seen with
  | nil => simp [dedupKeepFirst]
  | cons x xs ih =>
    rw [dedupKeepFirst]
    by_cases hx : x ∈ seen
    · rw [if_pos hx]
      exact (ih seen).trans (List.sublist_cons_self x xs)
    · rw [if_neg hx]
      exact List.Sublist.cons₂ x (ih (x :: seen))

theorem mem_dedupKeepFirst (seen l : List (List Char)) (x : List Char) :
    x ∈ dedupKeepFirst seen l ↔ x ∈ l ∧ x ∉ seen := by
  induction l generalizing seen with
  | nil => simp [dedupKeepFirst]
  | cons a xs ih =>
    rw [dedupKeepFirst]
    by_cases ha : a ∈ seen
    · rw [if_pos ha, ih]
      constructor
      · rintro ⟨hx, hn⟩
        exact ⟨List.mem_cons_of_mem a hx, hn⟩
      · rintro ⟨hx, hn⟩
        rcases List.mem_cons.1 hx with rfl | hx
        · exact absurd ha hn
        · exact ⟨hx, hn⟩
    · rw [if_neg ha]
      simp only [List.mem_cons, ih]
      constructor
      · rintro (rfl | ⟨hx, hn⟩)
        · exact ⟨Or.inl rfl, ha⟩
        · exact ⟨Or.inr hx, fun hs => hn (Or.inr hs)⟩
      · rintro ⟨rfl | hx, hn⟩
        · exact Or.inl rfl
        · by_cases hxa : x = a
          · exact Or.inl hxa
          · refine Or.inr ⟨hx, fun hs => ?_⟩
            rcases hs with h | h
            · exact hxa h
            · exact hn h

theorem dedupKeepFirst_nodup (seen l : List (List Char)) : (dedupKeepFirst seen l).Nodup := by
  induction l generalizing seen with
  | nil => simp [dedupKeepFirst]
  | cons a xs ih =>
    rw [dedupKeepFirst]
    by_cases ha : a ∈ seen
    · rw [if_pos ha]
      exact ih seen
    · rw [if_neg ha]
      refine List.nodup_cons.2 ⟨?_, ih (a :: seen)⟩
      intro hmem
      exact ((mem_dedupKeepFirst _ _ _).1 hmem).2 (List.mem_cons_self a seen)

theorem dedupKeepFirst_eq_self (seen l : List (List Char)) (hnd : l.Nodup)
    (hdisj : ∀ x ∈ l, x ∉ seen) : dedupKeepFirst seen l = l := by
  induction l generalizing seen with
  | nil => rfl
  | cons a xs ih =>
    rw [dedupKeepFirst, if_neg (hdisj a (List.mem_cons_self a xs))]
    congr 1
    apply ih (a :: seen) (List.nodup_cons.1 hnd).2
    intro x hx hmem
    rcases List.mem_cons.1 hmem with rfl | hs
    · exact (List.nodup_cons.1 hnd).1 hx
    · exact hdisj x (List.mem_cons_of_mem a hx) hs

theorem relName_childPath (fp r : List Char) : relName fp (childPath fp r) = r := by
  by_cases hfp : fp = []
  · simp [relName, childPath, hfp]
  · rw [childPath, if_neg hfp, relName, if_neg hfp]
    have hassoc : fp ++ '/' :: r = (fp ++ ['/']) ++ r := by simp
    rw [hassoc, if_pos (List.isPrefixOf_iff_prefix.2 ⟨r, rfl⟩)]
    exact List.drop_left' (by simp)

theorem collapse_direct (fp r : List Char) (h : '/' ∉ r) :
    collapse fp (childPath fp r) = r := by
  simp only [collapse, relName_childPath]
  rw [if_neg h]

theorem takeWhile_append_stop (p : Char → Bool) (l₁ : List Char) (a : Char) (l₂ : List Char)
    (h : ∀ c ∈ l₁, p c = true) (ha : p a = false) :
    (l₁ ++ a :: l₂).takeWhile p = l₁ := by
  induction l₁ with
  | nil =>
    rw [List.nil_append, List.takeWhile_cons_of_neg (by simp [ha])]
  | cons b l ih =>
    rw [List.cons_append, List.takeWhile_cons_of_pos (h b (List.mem_cons_self b l))]
    rw [ih (fun c hc => h c (List.mem_cons_of_mem b hc))]

theorem collapse_nested (fp seg rest : List Char) (h : '/' ∉ seg) :
    collapse fp (childPath fp (seg ++ '/' :: rest)) = seg ++ ['/'] := by
  simp only [collapse, relName_childPath]
  rw [if_pos (List.mem_append.2 (Or.inr (List.mem_cons_self '/' rest)))]
  rw [takeWhile_append_stop _ seg '/' rest
    (fun c hc => by
      simp only [decide_eq_true_eq]
      intro hcc
      rw [hcc] at hc
      exact h hc) (by decide)]

/-- C3: for a blob or dfs request, `ls` returns the backend listing passed
through the post-filter: every entry collapsed relative to the request's
object path (an entry directly below keeps its own name, a nested entry is
collapsed to its first segment plus a trailing `/`), duplicates removed with
first occurrences kept in listing order; with prefix-attachment each name is
re-prefixed with the request path, inserting a `/` when the path does not
already end in one. -/
theorem azfs_ls_relative_names
    (lsB : List Char → List Char → List (List Char)) (path url : List Char) (kind : String)
    (cont fp : List Char) (entries : List (List Char))
    (hdec : decodePath path = .ok ⟨url, kind, cont, fp⟩)
    (hkind : kind = dfsKind ∨ kind = blobKind)
    (hls : lsB path fp = entries) :
    azLs lsB path false = .ok (dedupKeepFirst [] (entries.map (collapse fp)))
    ∧ (ls_filter entries fp).Nodup
    ∧ (∀ n, n ∈ ls_filter entries fp ↔ n ∈ entries.map (collapse fp))
    ∧ List.Sublist (ls_filter entries fp) (entries.map (collapse fp))
    ∧ ((entries.map (collapse fp)).Nodup → ls_filter entries fp = entries.map (collapse fp))
    ∧ (∀ r, '/' ∉ r → collapse fp (childPath fp r) = r)
    ∧ (∀ seg rest, '/' ∉ seg → collapse fp (childPath fp (seg ++ '/' :: rest)) = seg ++ ['/'])
    ∧ azLs lsB path true = .ok ((ls_filter entries fp).map
        (fun f => (if List.isSuffixOf ['/'] path then path else path ++ ['/']) ++ f)) := by
  refine ⟨?_, dedupKeepFirst_nodup [] _, ?_, dedupKeepFirst_sublist [] _, ?_,
    fun r h => collapse_direct fp r h, fun seg rest h => collapse_nested fp seg rest h, ?_⟩
  · unfold azLs
    rw [hdec]
    dsimp only
    rw [hls, if_pos hkind]
    simp [ls_filter]
  · intro n
    rw [ls_filter, mem_dedupKeepFirst]
    simp
  · intro hnd
    exact dedupKeepFirst_eq_self [] _ hnd (by simp)
  · unfold azLs
    rw [hdec]
    dsimp only
    rw [hls, if_pos hkind]
    simp

/-- Witness for C3: the spec's own listing example, with and without
prefix-attachment. -/
theorem azfs_ls_relative_names_witness :
    decodePath "https://testazfs.blob.core.windows.net/test_container/".data =
      .ok ⟨"https://testazfs.blob.core.windows.net".data, blobKind,
        "test_container".data, []⟩ ∧
    azLs (fun _ _ => ["test1.csv".data, "test2.csv".data, "dir/nested.csv".data])
      "https://testazfs.blob.core.windows.net/test_container/".data false =
      .ok ["test1.csv".data, "test2.csv".data, "dir/".data] ∧
    azLs (fun _ _ => ["test1.csv".data, "test2.csv".data, "dir/nested.csv".data])
      "https://testazfs.blob.core.windows.net/test_container/".data true =
      .ok ["https://testazfs.blob.core.windows.net/test_container/test1.csv".data,
        "https://testazfs.blob.core.windows.net/test_container/test2.csv".data,
        "https://testazfs.blob.core.windows.net/test_container/dir/".data] :=
  ⟨by decide,
    Eq.trans
      (azfs_ls_relative_names
        (fun _ _ => ["test1.csv".data, "test2.csv".data, "dir/nested.csv".data])
        "https://testazfs.blob.core.windows.net/test_container/".data
        "https://testazfs.blob.core.windows.net".data blobKind
        "test_container".data [] _ (by decide) (Or.inr rfl) rfl).1
      (by decide),
    Eq.trans
      (azfs_ls_relative_names
        (fun _ _ => ["test1.csv".data, "test2.csv".data, "dir/nested.csv".data])
        "https://testazfs.blob.core.windows.net/test_container/".data
        "https://testazfs.blob.core.windows.net".data blobKind
        "test_container".data [] _ (by decide) (Or.inr rfl) rfl).2.2.2.2.2.2.2
      (by decide)⟩

/-! ### The storage model -/

def BlobStore : Type := List Char → Option (List Nat)

/-- A hierarchical (data-lake) file: committed content plus the uncommitted
append buffer. -/
structure DLFile where
  committed : List Nat
  buffer : List Nat
deriving DecidableEq, Repr

def DLStore : Type := List Char → Option DLFile

/-- The two backend stores, keyed by the full request path. -/
structure Cloud where
  blob : BlobStore
  dfs : DLStore

def emptyCloud : Cloud := ⟨fun _ => none, fun _ => none⟩

/-- Modelled from the spec: the SDK `upload_blob` call (external collaborator):
stores the first `length` bytes of the payload under the key; without
`overwrite` an existing object makes the call fail. -/
def uploadBlob (store : BlobStore) (key : List Char) (data : List Nat) (length : Nat)
    (overwrite : Bool) : Except AzErr BlobStore :=
  let store' : BlobStore := fun k => if k = key then some (data.take length) else store k
  if overwrite = false then
    if (store key).isSome then .error .sdkOther else .ok store'
  else .ok store'

/-- `AzBlobClient._put` (src/azfs/clients/blob_client.py lines 81-87):
`upload_blob(data=data, length=len(data), overwrite=True)`, returning `True`. -/
def blobPut (store : BlobStore) (key : List Char) (data : List Nat) :
    Except AzErr (BlobStore × Bool) :=
  (uploadBlob store key data data.length true).map (fun s => (s, true))

/-- Modelled from the spec: the SDK `create_file` call — creates an empty
file (empty committed content, empty buffer). -/
def createFile (st : DLStore) (key : List Char) : DLStore :=
  fun k => if k = key then some ⟨[], []⟩ else st k

/-- Modelled from the spec: the SDK `append_data` call — writes the first
`length` bytes of the payload into the uncommitted buffer at `offset`. -/
def appendData (st : DLStore) (key : List Char) (data : List Nat) (offset length : Nat) :
    DLStore :=
  fun k =>
    if k = key then
      (st key).map (fun f => ⟨f.committed, f.buffer.take offset ++ data.take length⟩)
    else st k

/-- Modelled from the spec: the SDK `flush_data` call — commits the first `n`
bytes of the uncommitted buffer. -/
def flushData (st : DLStore) (key : List Char) (n : Nat) : DLStore :=
  fun k =>
    if k = key then (st key).map (fun f => ⟨f.buffer.take n, f.buffer⟩) else st k

/-- An SDK call of the data-lake write path, for recording the performed
sequence. -/
inductive DLOp where
  | create
  | append (data : List Nat) (offset length : Nat)
  | flush (n : Nat)
deriving DecidableEq, Repr

/-- `AzDataLakeClient._put` (src/azfs/clients/datalake_client.py lines 86-91):
`create_file()`, then `append_data(data, offset=0, length=len(data))`, then
`flush_data(len(data))`, returning `True`; the performed SDK call sequence is
recorded alongside. -/
def datalakePut (st : DLStore) (key : List Char) (data : List Nat) :
    DLStore × Bool × List DLOp :=
  let s1 := createFile st key
  let s2 := appendData s1 key data 0 data.length
  let s3 := flushData s2 key data.length
  (s3, true, [DLOp.create, DLOp.append data 0 data.length, DLOp.flush data.length])

/-- C4: blob `_put` uploads with overwrite enabled — any existing object at
the key is replaced and the stored content is exactly the `len(data)`-byte
payload; datalake `_put` performs exactly the three-step create, append at
offset 0 with length `len(data)`, flush of `len(data)` bytes, leaving the
full payload committed; both return `True` and touch no other key. -/
theorem azfs_put_backend_sequences (store : BlobStore) (st : DLStore)
    (key : List Char) (data : List Nat) :
    (∃ store', blobPut store key data = .ok (store', true)
      ∧ store' key = some data
      ∧ ∀ k, k ≠ key → store' k = store k)
    ∧ (datalakePut st key data).2.1 = true
    ∧ (datalakePut st key data).2.2 =
        [DLOp.create, DLOp.append data 0 data.length, DLOp.flush data.length]
    ∧ (datalakePut st key data).1 key = some ⟨data, data⟩
    ∧ (∀ k, k ≠ key → (datalakePut st key data).1 k = st k) := by
  refine ⟨⟨fun k => if k = key then some (data.take data.length) else store k, rfl, ?_, ?_⟩,
    rfl, rfl, ?_, ?_⟩
  · simp
  · intro k hk
    simp [hk]
  · simp [datalakePut, flushData, appendData, createFile]
  · intro k hk
    simp [datalakePut, flushData, appendData, createFile, hk]

/-- Witness for C4: a concrete data-lake write commits exactly the payload
and records the three-step sequence, and a concrete blob write stores the
payload. -/
theorem azfs_put_backend_sequences_witness :
    (datalakePut (fun _ => none) "k".data [7, 8]).2.1 = true
    ∧ (datalakePut (fun _ => none) "k".data [7, 8]).1 "k".data = some ⟨[7, 8], [7, 8]⟩
    ∧ (datalakePut (fun _ => none) "k".data [7, 8]).2.2 =
        [DLOp.create, DLOp.append [7, 8] 0 2, DLOp.flush 2] :=
  ⟨(azfs_put_backend_sequences (fun _ => none) (fun _ => none) "k".data [7, 8]).2.1,
    (azfs_put_backend_sequences (fun _ => none) (fun _ => none) "k".data [7, 8]).2.2.2.1,
    (azfs_put_backend_sequences (fun _ => none) (fun _ => none) "k".data [7, 8]).2.2.1⟩

def gzMark : List Char := ".gz".data

/-- `path.endswith(".gz")`. -/
def endsWithGz (p : List Char) : Bool := List.isSuffixOf gzMark p

/-- Modelled from the spec: Python `gzip.decompress` (standard library,
external to the repository).  Only the header check is modelled: a gzip
stream begins with the magic bytes 31 and 139; on any other payload
decompression fails (`BadGzipFile`).  Decoding of a well-formed stream is
abstracted by the parameter `inflate`. -/
def gzipDecompress (inflate : List Nat → List Nat) (b : List Nat) : Except AzErr (List Nat) :=
  if b.take 2 = [31, 139] then .ok (inflate b) else .error .badGzip

/-- `AzFileClient._put` (src/azfs/az_file_client.py lines 858-880): decode the
path and dispatch the upload to the blob or data-lake client (the queue
client is not part of src/). -/
def azPut (cloud : Cloud) (path : List Char) (data : List Nat) : Except AzErr (Cloud × Bool) :=
  match decodePath path with
  | .error e => .error e
  | .ok d =>
    if d.kind = blobKind then
      (blobPut cloud.blob path data).map (fun sb => ({ cloud with blob := sb.1 }, sb.2))
    else if d.kind = dfsKind then
      .ok ({ cloud with dfs := (datalakePut cloud.dfs path data).1 },
        (datalakePut cloud.dfs path data).2.1)
    else .error .notModelled

/-- `AzFileClient._get` (src/azfs/az_file_client.py lines 631-667): decode the
path, dispatch the download (`readall`, raising `ResourceNotFoundError` for a
missing object), then gunzip when the path ends in `.gz`; the `BytesIO`
wrapping is the identity on the byte content. -/
def azGet (inflate : List Nat → List Nat) (cloud : Cloud) (path : List Char) :
    Except AzErr (List Nat) :=
  match decodePath path with
  | .error e => .error e
  | .ok d =>
    match
      (if d.kind = blobKind then
        match cloud.blob path with
        | some b => Except.ok b
        | none => Except.error AzErr.resourceNotFound
      else if d.kind = dfsKind then
        match cloud.dfs path with
        | some f => Except.ok f.committed
        | none => Except.error AzErr.resourceNotFound
      else Except.error AzErr.notModelled) with
    | .error e => .error e
    | .ok bytes => if endsWithGz path then gzipDecompress inflate bytes else .ok bytes

/-- `put` followed by `get` on the same path. -/
def azPutThenGet (inflate : List Nat → List Nat) (cloud : Cloud) (path : List Char)
    (data : List Nat) : Except AzErr (List Nat) :=
  match azPut cloud path data with
  | .error e => .error e
  | .ok cb => azGet inflate cb.1 path

/-- C5 (amended): for a decodable path of blob or dfs kind that does not end
in `.gz`, `put(path, data)` succeeds returning `True` and a following
`get(path)` yields exactly `data`. -/
theorem azfs_put_get_roundtrip_non_gz (inflate : List Nat → List Nat) (cloud : Cloud)
    (path : List Char) (data : List Nat) (url : List Char) (kind : String)
    (cont fp : List Char)
    (hdec : decodePath path = .ok ⟨url, kind, cont, fp⟩)
    (hkind : kind = blobKind ∨ kind = dfsKind)
    (hgz : endsWithGz path = false) :
    azPutThenGet inflate cloud path data = .ok data
    ∧ (∃ cloud', azPut cloud path data = .ok (cloud', true)) := by
  rcases hkind with hkind | hkind <;> subst hkind
  · constructor
    · unfold azPutThenGet azPut azGet
      rw [hdec]
      simp [blobPut, uploadBlob, hgz, Except.map]
    · unfold azPut
      rw [hdec]
      simp [blobPut, uploadBlob, Except.map]
  · constructor
    · unfold azPutThenGet azPut azGet
      rw [hdec]
      simp [datalakePut, flushData, appendData, createFile, hgz, blobKind, dfsKind, Except.map]
    · unfold azPut
      rw [hdec]
      simp [datalakePut, blobKind, dfsKind, Except.map]

/-- Witness for C5: a concrete blob round trip returns the payload. -/
theorem azfs_put_get_roundtrip_non_gz_witness :
    decodePath "https://testazfs.blob.core.windows.net/test_container/test1.csv".data =
      .ok ⟨"https://testazfs.blob.core.windows.net".data, blobKind,
        "test_container".data, "test1.csv".data⟩
    ∧ endsWithGz "https://testazfs.blob.core.windows.net/test_container/test1.csv".data = false
    ∧ azPutThenGet (fun b => b) emptyCloud
        "https://testazfs.blob.core.windows.net/test_container/test1.csv".data [1, 2, 3] =
        .ok [1, 2, 3] :=
  ⟨by decide, by decide,
    (azfs_put_get_roundtrip_non_gz (fun b => b) emptyCloud
      "https://testazfs.blob.core.windows.net/test_container/test1.csv".data [1, 2, 3]
      "https://testazfs.blob.core.windows.net".data blobKind
      "test_container".data "test1.csv".data (by decide) (Or.inl rfl) (by decide)).1⟩

/-- Counterexample to C5 as stated: on a path ending in `.gz`, `put` stores
the raw payload but `get` pipes it through gzip decompression, so the round
trip does not return the payload — with payload `[0]` (no gzip magic) the
read raises instead. -/
theorem azfs_put_get_roundtrip_fails_on_gz :
    azPutThenGet (fun b => b) emptyCloud
      "https://testazfs.blob.core.windows.net/test_container/test1.gz".data [0] =
      .error .badGzip
    ∧ azPutThenGet (fun b => b) emptyCloud
      "https://testazfs.blob.core.windows.net/test_container/test1.gz".data [0] ≠ .ok [0] :=
  ⟨by decide, by decide⟩

/-! ### Properties, classification, existence -/

def hdiKey : String := "hdi_isfolder"

def dirStr : String := "directory"

def fileStr : String := "file"

def emptyStr : String := ""

/-- The backend metadata record consumed by `AzFileClient.info`: the plain
property fields, the `content_settings` content-type (possibly `None`), and
the keys of the `metadata` dict. -/
structure SdkProps where
  name : String
  size : String
  creation_time : String
  last_modified : String
  etag : String
  contentType : Option String
  metadataKeys : List String
deriving DecidableEq, Repr

/-- A backend stat call outcome: a record, `ResourceNotFoundError`, or some
other exception. -/
inductive SdkOutcome where
  | found (p : SdkProps)
  | notFound
  | otherErr
deriving DecidableEq, Repr

/-- The file-kind classification of `AzFileClient.info`
(src/azfs/az_file_client.py lines 468-479): `"directory"` when the metadata
carries the `hdi_isfolder` key (present only on hierarchical storage), else
`"file"` when the content-settings content-type is not `None`, else the empty
string. -/
def dataType (p : SdkProps) : String :=
  if hdiKey ∈ p.metadataKeys then dirStr
  else if p.contentType.isSome then fileStr
  else emptyStr

/-- The record assembled by `AzFileClient.info`
(src/azfs/az_file_client.py lines 480-488). -/
structure InfoRecord where
  name : String
  size : String
  creation_time : String
  last_modified : String
  etag : String
  content_type : String
  type : String
deriving DecidableEq, Repr

def buildInfo (p : SdkProps) : InfoRecord :=
  ⟨p.name, p.size, p.creation_time, p.last_modified, p.etag,
    p.contentType.getD emptyStr, dataType p⟩

/-- `AzFileClient.info` (src/azfs/az_file_client.py lines 437-488): decode the
path, fetch the backend properties (abstracted by `infoB`, which may raise
`ResourceNotFoundError` or another exception), classify and assemble the
record. -/
def azInfo (infoB : String → List Char → SdkOutcome) (path : List Char) :
    Except AzErr InfoRecord :=
  match decodePath path with
  | .error e => .error e
  | .ok d =>
    match infoB d.kind path with
    | .found p => .ok (buildInfo p)
    | .notFound => .error .resourceNotFound
    | .otherErr => .error .sdkOther

/-- `AzFileClient.exists` (src/azfs/az_file_client.py lines 324-350): call
`info`, converting exactly `ResourceNotFoundError` to `False`; success gives
`True` and any other exception propagates. -/
def azExists (infoB : String → List Char → SdkOutcome) (path : List Char) :
    Except AzErr Bool :=
  match azInfo infoB path with
  | .ok _ => .ok true
  | .error .resourceNotFound => .ok false
  | .error e => .error e

/-- C6: for a decodable path, `exists` returns `False` exactly when the
backend stat raises `ResourceNotFoundError`, returns `True` whenever the stat
succeeds, and never lets the not-found error escape to the caller. -/
theorem azfs_exists_not_found (infoB : String → List Char → SdkOutcome)
    (path url : List Char) (kind : String) (cont fp : List Char)
    (hdec : decodePath path = .ok ⟨url, kind, cont, fp⟩) :
    (azExists infoB path = .ok false ↔ infoB kind path = .notFound)
    ∧ (∀ p, infoB kind path = .found p → azExists infoB path = .ok true)
    ∧ azExists infoB path ≠ .error .resourceNotFound := by
  unfold azExists azInfo
  rw [hdec]
  dsimp only
  cases h : infoB kind path <;> simp [h]

/-- Witness for C6: a backend that reports not-found makes `exists` return
`False`. -/
theorem azfs_exists_not_found_witness :
    decodePath "https://testazfs.dfs.core.windows.net/test_container/test1.csv".data =
      .ok ⟨"https://testazfs.dfs.core.windows.net".data, dfsKind,
        "test_container".data, "test1.csv".data⟩
    ∧ azExists (fun _ _ => SdkOutcome.notFound)
        "https://testazfs.dfs.core.windows.net/test_container/test1.csv".data = .ok false :=
  ⟨by decide,
    ((azfs_exists_not_found (fun _ _ => SdkOutcome.notFound)
      "https://testazfs.dfs.core.windows.net/test_container/test1.csv".data
      "https://testazfs.dfs.core.windows.net".data dfsKind
      "test_container".data "test1.csv".data (by decide)).1).mpr rfl⟩

/-- C8: the stat classification is `"directory"` exactly when the metadata
carries the `hdi_isfolder` marker; otherwise it is `"file"` exactly when the
content-type is non-null, and the empty string when the content-type is null;
a record without the marker (as on flat storage) is never a directory. -/
theorem azfs_info_type_classification (p : SdkProps) :
    (buildInfo p).type = dataType p
    ∧ (dataType p = dirStr ↔ hdiKey ∈ p.metadataKeys)
    ∧ (hdiKey ∉ p.metadataKeys → (dataType p = fileStr ↔ p.contentType ≠ none))
    ∧ (hdiKey ∉ p.metadataKeys → p.contentType = none → dataType p = emptyStr)
    ∧ (hdiKey ∉ p.metadataKeys → dataType p ≠ dirStr) := by
  by_cases hm : hdiKey ∈ p.metadataKeys
  · refine ⟨rfl, ?_, fun h => absurd hm h, fun h => absurd hm h, fun h => absurd hm h⟩
    rw [dataType, if_pos hm]
    simp [hm]
  · cases hct : p.contentType with
    | none =>
      refine ⟨rfl, ?_, ?_, ?_, ?_⟩
      · rw [dataType, if_neg hm, hct]
        simp [hm]
        decide
      · intro _
        rw [dataType, if_neg hm, hct]
        simp
        decide
      · intro _ _
        rw [dataType, if_neg hm, hct]
        rfl
      · intro _
        rw [dataType, if_neg hm, hct]
        simp
        decide
    | some ct =>
      refine ⟨rfl, ?_, ?_, ?_, ?_⟩
      · rw [dataType, if_neg hm, hct]
        simp [hm]
        decide
      · intro _
        rw [dataType, if_neg hm, hct]
        simp
      · intro _ h
        exact absurd h (by simp)
      · intro _
        rw [dataType, if_neg hm, hct]
        simp
        decide

/-- Witness for C8: a record carrying the marker classifies as a directory; a
record without marker and without content-type classifies as the empty
string. -/
theorem azfs_info_type_classification_witness :
    dataType ⟨emptyStr, emptyStr, emptyStr, emptyStr, emptyStr, none, [hdiKey]⟩ = dirStr
    ∧ dataType ⟨emptyStr, emptyStr, emptyStr, emptyStr, emptyStr, none, []⟩ = emptyStr :=
  ⟨((azfs_info_type_classification
      ⟨emptyStr, emptyStr, emptyStr, emptyStr, emptyStr, none, [hdiKey]⟩).2.1).mpr
      (by decide),
    (azfs_info_type_classification
      ⟨emptyStr, emptyStr, emptyStr, emptyStr, emptyStr, none, []⟩).2.2.2.1
      (by decide) rfl⟩

/-! ### Copy -/

/-- Modelled from the spec: the backend `stat` as realized over the modelled
stores — found when the object exists in the store of the decoded kind,
not-found otherwise (the metadata fields themselves are not modelled). -/
def cloudInfo (cloud : Cloud) : String → List Char → SdkOutcome :=
  fun kind path =>
    if kind = blobKind then
      match cloud.blob path with
      | some _ => .found ⟨emptyStr, emptyStr, emptyStr, emptyStr, emptyStr, some emptyStr, []⟩
      | none => .notFound
    else if kind = dfsKind then
      match cloud.dfs path with
      | some _ => .found ⟨emptyStr, emptyStr, emptyStr, emptyStr, emptyStr, some emptyStr, []⟩
      | none => .notFound
    else .otherErr

/-- The byte content stored for a path under a backend kind. -/
def contentOf (cloud : Cloud) (kind : String) (path : List Char) : Option (List Nat) :=
  if kind = blobKind then cloud.blob path
  else if kind = dfsKind then (cloud.dfs path).map (fun f => f.committed)
  else none

def msgCpSame : String := "src_path and dst_path must be different"

def msgCpExistsTail : String := " is already exists. Please set `overwrite=True`."

/-- `AzFileClient.cp` (src/azfs/az_file_client.py lines 398-421): reject equal
paths; without `overwrite`, reject an existing destination (checked through
`exists`); otherwise download the source and upload it to the destination,
returning `True`. -/
def azCp (inflate : List Nat → List Nat) (cloud : Cloud) (src dst : List Char)
    (overwrite : Bool) : Except AzErr (Cloud × Bool) :=
  if src = dst then .error (.azfsInput msgCpSame)
  else
    match (if overwrite then Except.ok false else azExists (cloudInfo cloud) dst) with
    | .error e => .error e
    | .ok true => .error (.azfsInput (String.mk dst ++ msgCpExistsTail))
    | .ok false =>
      match azGet inflate cloud src with
      | .error e => .error e
      | .ok data =>
        match azPut cloud dst data with
        | .error e => .error e
        | .ok cb => .ok (cb.1, true)

/-- The boolean `cp` returns, when it succeeds. -/
def cpReturn (inflate : List Nat → List Nat) (cloud : Cloud) (src dst : List Char)
    (overwrite : Bool) : Option Bool :=
  match azCp inflate cloud src dst overwrite with
  | .ok cb => some cb.2
  | .error _ => none

/-- The content stored at a path after a successful `cp`. -/
def cpResultContent (inflate : List Nat → List Nat) (cloud : Cloud) (src dst : List Char)
    (overwrite : Bool) (kind : String) (path : List Char) : Option (Option (List Nat)) :=
  match azCp inflate cloud src dst overwrite with
  | .ok cb => some (contentOf cb.1 kind path)
  | .error _ => none

theorem azPut_blob (cloud : Cloud) (dst : List Char) (bytes : List Nat)
    (durl : List Char) (dcont dfp : List Char)
    (hdst : decodePath dst = .ok ⟨durl, blobKind, dcont, dfp⟩) :
    azPut cloud dst bytes =
      .ok ({ cloud with
        blob := fun k => if k = dst then some (bytes.take bytes.length) else cloud.blob k },
        true) := by
  unfold azPut
  rw [hdst]
  simp [blobPut, uploadBlob, Except.map]

theorem azPut_dfs (cloud : Cloud) (dst : List Char) (bytes : List Nat)
    (durl : List Char) (dcont dfp : List Char)
    (hdst : decodePath dst = .ok ⟨durl, dfsKind, dcont, dfp⟩) :
    azPut cloud dst bytes =
      .ok ({ cloud with dfs := (datalakePut cloud.dfs dst bytes).1 }, true) := by
  unfold azPut
  rw [hdst]
  simp [blobKind, dfsKind, datalakePut]

theorem datalakePut_same (st : DLStore) (key : List Char) (data : List Nat) :
    (datalakePut st key data).1 key = some ⟨data, data⟩ := by
  simp [datalakePut, flushData, appendData, createFile]

theorem datalakePut_other (st : DLStore) (key k : List Char) (data : List Nat)
    (hk : k ≠ key) : (datalakePut st key data).1 k = st k := by
  simp [datalakePut, flushData, appendData, createFile, hk]

/-- C7 (amended): `cp` rejects equal source and destination up front with
`InvalidArgumentError` (for every state, hence before any backend access);
without `overwrite` an existing destination is rejected with the
already-exists error and nothing is read or written; with `overwrite`,
distinct decodable blob/dfs paths, an existing source and a source not ending
in `.gz`, `cp` returns `True` and afterwards the destination holds exactly
the source content (and the source is unchanged). -/
theorem azfs_cp_guards_and_copy (inflate : List Nat → List Nat) (cloud : Cloud)
    (src dst : List Char) (overwrite : Bool)
    (surl : List Char) (skind : String) (scont sfp : List Char)
    (durl : List Char) (dkind : String) (dcont dfp : List Char)
    (hsrc : decodePath src = .ok ⟨surl, skind, scont, sfp⟩)
    (hdst : decodePath dst = .ok ⟨durl, dkind, dcont, dfp⟩) :
    (src = dst → azCp inflate cloud src dst overwrite = .error (.azfsInput msgCpSame))
    ∧ (src ≠ dst → overwrite = false → azExists (cloudInfo cloud) dst = .ok true →
        azCp inflate cloud src dst overwrite =
          .error (.azfsInput (String.mk dst ++ msgCpExistsTail)))
    ∧ (∀ bytes, src ≠ dst →
        (skind = blobKind ∨ skind = dfsKind) → (dkind = blobKind ∨ dkind = dfsKind) →
        endsWithGz src = false → contentOf cloud skind src = some bytes →
        cpReturn inflate cloud src dst true = some true
        ∧ cpResultContent inflate cloud src dst true dkind dst = some (some bytes)
        ∧ cpResultContent inflate cloud src dst true skind src = some (some bytes)) := by
  refine ⟨?_, ?_, ?_⟩
  · intro h
    unfold azCp
    rw [if_pos h]
  · intro hne how hex
    subst how
    unfold azCp
    rw [if_neg hne]
    rw [if_neg Bool.false_ne_true]
    rw [hex]
  · intro bytes hne hsk hdk hgz hcontent
    have hget : azGet inflate cloud src = .ok bytes := by
      unfold azGet
      rw [hsrc]
      dsimp only
      rcases hsk with hsk | hsk <;> rw [hsk] at hcontent ⊢
      · rw [contentOf, if_pos rfl] at hcontent
        simp [hcontent, hgz]
      · rw [contentOf, if_neg (by decide), if_pos rfl] at hcontent
        obtain ⟨f, hf, hfc⟩ := Option.map_eq_some'.1 hcontent
        simp [blobKind, dfsKind, hf, hfc, hgz]
    unfold cpReturn cpResultContent azCp
    rw [if_neg hne]
    simp only [reduceIte]
    rw [hget]
    dsimp only
    rcases hdk with hdk | hdk
    · rw [azPut_blob cloud dst bytes durl dcont dfp (hdk ▸ hdst)]
      dsimp only
      refine ⟨rfl, ?_, ?_⟩
      · rw [hdk, contentOf, if_pos rfl]
        dsimp only
        rw [if_pos rfl]
        simp
      · rcases hsk with hsk | hsk <;> rw [hsk] at hcontent ⊢
        · rw [contentOf, if_pos rfl] at hcontent
          rw [contentOf, if_pos rfl]
          dsimp only
          rw [if_neg hne]
          simp [hcontent]
        · rw [contentOf, if_neg (by decide), if_pos rfl] at hcontent
          rw [contentOf, if_neg (by decide), if_pos rfl]
          dsimp only
          simp [hcontent]
    · rw [azPut_dfs cloud dst bytes durl dcont dfp (hdk ▸ hdst)]
      dsimp only
      refine ⟨rfl, ?_, ?_⟩
      · rw [hdk, contentOf, if_neg (by decide), if_pos rfl]
        dsimp only
        rw [datalakePut_same]
        simp
      · rcases hsk with hsk | hsk <;> rw [hsk] at hcontent ⊢
        · rw [contentOf, if_pos rfl] at hcontent
          rw [contentOf, if_pos rfl]
          dsimp only
          simp [hcontent]
        · rw [contentOf, if_neg (by decide), if_pos rfl] at hcontent
          rw [contentOf, if_neg (by decide), if_pos rfl]
          dsimp only
          rw [datalakePut_other cloud.dfs dst src bytes hne]
          simp [hcontent]

/-- Witness for C7: a concrete overwrite-copy between two blob paths returns
`True` and duplicates the source content at the destination. -/
theorem azfs_cp_guards_and_copy_witness :
    decodePath "https://testazfs.blob.core.windows.net/test_container/a.csv".data =
      .ok ⟨"https://testazfs.blob.core.windows.net".data, blobKind,
        "test_container".data, "a.csv".data⟩
    ∧ "https://testazfs.blob.core.windows.net/test_container/a.csv".data ≠
        "https://testazfs.blob.core.windows.net/test_container/b.csv".data
    ∧ contentOf
        ⟨fun k =>
          if k = "https://testazfs.blob.core.windows.net/test_container/a.csv".data then
            some [5]
          else none, fun _ => none⟩ blobKind
        "https://testazfs.blob.core.windows.net/test_container/a.csv".data = some [5]
    ∧ cpReturn (fun b => b)
        ⟨fun k =>
          if k = "https://testazfs.blob.core.windows.net/test_container/a.csv".data then
            some [5]
          else none, fun _ => none⟩
        "https://testazfs.blob.core.windows.net/test_container/a.csv".data
        "https://testazfs.blob.core.windows.net/test_container/b.csv".data true = some true
    ∧ cpResultContent (fun b => b)
        ⟨fun k =>
          if k = "https://testazfs.blob.core.windows.net/test_container/a.csv".data then
            some [5]
          else none, fun _ => none⟩
        "https://testazfs.blob.core.windows.net/test_container/a.csv".data
        "https://testazfs.blob.core.windows.net/test_container/b.csv".data true blobKind
        "https://testazfs.blob.core.windows.net/test_container/b.csv".data =
        some (some [5]) :=
  ⟨by decide, by decide, by decide,
    ((azfs_cp_guards_and_copy (fun b => b)
      ⟨fun k =>
        if k = "https://testazfs.blob.core.windows.net/test_container/a.csv".data then
          some [5]
        else none, fun _ => none⟩
      "https://testazfs.blob.core.windows.net/test_container/a.csv".data
      "https://testazfs.blob.core.windows.net/test_container/b.csv".data true
      "https://testazfs.blob.core.windows.net".data blobKind
      "test_container".data "a.csv".data
      "https://testazfs.blob.core.windows.net".data blobKind
      "test_container".data "b.csv".data (by decide) (by decide)).2.2 [5]
      (by decide) (Or.inl rfl) (Or.inl rfl) (by decide) (by decide)).1,
    ((azfs_cp_guards_and_copy (fun b => b)
      ⟨fun k =>
        if k = "https://testazfs.blob.core.windows.net/test_container/a.csv".data then
          some [5]
        else none, fun _ => none⟩
      "https://testazfs.blob.core.windows.net/test_container/a.csv".data
      "https://testazfs.blob.core.windows.net/test_container/b.csv".data true
      "https://testazfs.blob.core.windows.net".data blobKind
      "test_container".data "a.csv".data
      "https://testazfs.blob.core.windows.net".data blobKind
      "test_container".data "b.csv".data (by decide) (by decide)).2.2 [5]
      (by decide) (Or.inl rfl) (Or.inl rfl) (by decide) (by decide)).2.1⟩

/-- The error `cp` raises, when it fails. -/
def cpError (inflate : List Nat → List Nat) (cloud : Cloud) (src dst : List Char)
    (overwrite : Bool) : Option AzErr :=
  match azCp inflate cloud src dst overwrite with
  | .ok _ => none
  | .error e => some e

/-- Counterexample to C7 as stated: with `overwrite=true` and distinct paths,
`cp` from a `.gz`-suffixed source pipes the stored bytes through gzip
decompression; for stored content `[0]` the copy raises instead of returning
`True`, so "overwrite and distinct paths imply success and content match"
fails without further assumptions. -/
theorem azfs_cp_gz_source_not_copied :
    "https://testazfs.blob.core.windows.net/test_container/src.gz".data ≠
      "https://testazfs.blob.core.windows.net/test_container/dst.csv".data
    ∧ cpError (fun b => b)
        ⟨fun k =>
          if k = "https://testazfs.blob.core.windows.net/test_container/src.gz".data then
            some [0]
          else none, fun _ => none⟩
        "https://testazfs.blob.core.windows.net/test_container/src.gz".data
        "https://testazfs.blob.core.windows.net/test_container/dst.csv".data true =
        some .badGzip
    ∧ cpReturn (fun b => b)
        ⟨fun k =>
          if k = "https://testazfs.blob.core.windows.net/test_container/src.gz".data then
            some [0]
          else none, fun _ => none⟩
        "https://testazfs.blob.core.windows.net/test_container/src.gz".data
        "https://testazfs.blob.core.windows.net/test_container/dst.csv".data true = none :=
  ⟨by decide, by decide, by decide⟩

/-! ### The earlier core module dispatchers -/

/-- `AzFileClient.get_properties` from the earlier core module
(src/azfs/core.py lines 104-120): dispatch to the data-lake or blob client
(abstracted as `dfsP` / `blobP`); any other kind returns the empty dict. -/
def core_get_properties (dfsP blobP : List Char → List (String × String)) (path : List Char) :
    Except AzErr (List (String × String)) :=
  match decodePath path with
  | .error e => .error e
  | .ok d =>
    if d.kind = dfsKind then .ok (dfsP path)
    else if d.kind = blobKind then .ok (blobP path)
    else .ok []

/-- `AzFileClient._upload_data` (src/azfs/core.py lines 148-160): dispatch to
the data-lake or blob client; any other kind returns `False`. -/
def core_upload_data (dfsU blobU : List Char → List Nat → Bool) (path : List Char)
    (data : List Nat) : Except AzErr Bool :=
  match decodePath path with
  | .error e => .error e
  | .ok d =>
    if d.kind = dfsKind then .ok (dfsU path data)
    else if d.kind = blobKind then .ok (blobU path data)
    else .ok false

/-- `AzFileClient._download_data` (src/azfs/core.py lines 122-135): dispatch
to the data-lake or blob client; any other kind leaves the result `None`. -/
def core_download_data (dfsD blobD : List Char → List Nat) (path : List Char) :
    Except AzErr (Option (List Nat)) :=
  match decodePath path with
  | .error e => .error e
  | .ok d =>
    if d.kind = dfsKind then .ok (some (dfsD path))
    else if d.kind = blobKind then .ok (some (blobD path))
    else .ok none

/-- C9 (amended): operations on a queue-kind URL do not signal an
unsupported-backend error: `ls` returns the raw backend listing unfiltered,
`get_properties` returns the empty record, `_upload_data` returns `False`,
`_download_data` returns `None` — all normal values — and only `glob` raises
(`NotImplementedError`). -/
theorem azfs_queue_ops_return_values
    (lsB : List Char → List Char → List (List Char))
    (dfsP blobP : List Char → List (String × String))
    (dfsU blobU : List Char → List Nat → Bool)
    (dfsD blobD : List Char → List Nat)
    (path url cont fp : List Char) (data : List Nat) (ap : Bool)
    (hdec : decodePath path = .ok ⟨url, queueKind, cont, fp⟩) :
    azLs lsB path ap = .ok (lsB path fp)
    ∧ ('*' ∈ path → rootFolder fp ≠ none → glob lsB path = .error .notImplemented)
    ∧ core_get_properties dfsP blobP path = .ok []
    ∧ core_upload_data dfsU blobU path data = .ok false
    ∧ core_download_data dfsD blobD path = .ok none := by
  refine ⟨?_, ?_, ?_, ?_, ?_⟩
  · unfold azLs
    rw [hdec]
    dsimp only
    rw [if_neg (by decide), if_pos rfl]
  · intro hstar hroot
    obtain ⟨r, hr⟩ := Option.ne_none_iff_exists'.1 hroot
    unfold glob
    rw [if_pos hstar, hdec]
    dsimp only
    rw [hr]
    dsimp only
    rw [if_neg (by decide), if_pos rfl]
  · unfold core_get_properties
    rw [hdec]
    dsimp only
    rw [if_neg (by decide), if_neg (by decide)]
  · unfold core_upload_data
    rw [hdec]
    dsimp only
    rw [if_neg (by decide), if_neg (by decide)]
  · unfold core_download_data
    rw [hdec]
    dsimp only
    rw [if_neg (by decide), if_neg (by decide)]

/-- Witness for C9: the queue-kind fallbacks at a concrete URL. -/
theorem azfs_queue_ops_return_values_witness :
    decodePath "https://testazfs.queue.core.windows.net/test_container/test1.csv".data =
      .ok ⟨"https://testazfs.queue.core.windows.net".data, queueKind,
        "test_container".data, "test1.csv".data⟩
    ∧ core_get_properties (fun _ => []) (fun _ => [])
        "https://testazfs.queue.core.windows.net/test_container/test1.csv".data = .ok []
    ∧ core_download_data (fun _ => []) (fun _ => [])
        "https://testazfs.queue.core.windows.net/test_container/test1.csv".data = .ok none :=
  ⟨by decide,
    (azfs_queue_ops_return_values (fun _ _ => []) (fun _ => []) (fun _ => [])
      (fun _ _ => true) (fun _ _ => true) (fun _ => []) (fun _ => [])
      "https://testazfs.queue.core.windows.net/test_container/test1.csv".data
      "https://testazfs.queue.core.windows.net".data
      "test_container".data "test1.csv".data [] false (by decide)).2.2.1,
    (azfs_queue_ops_return_values (fun _ _ => []) (fun _ => []) (fun _ => [])
      (fun _ _ => true) (fun _ _ => true) (fun _ => []) (fun _ => [])
      "https://testazfs.queue.core.windows.net/test_container/test1.csv".data
      "https://testazfs.queue.core.windows.net".data
      "test_container".data "test1.csv".data [] false (by decide)).2.2.2.2⟩

/-- Counterexample to C9 as stated: on a queue-kind URL, the write dispatch
returns the normal value `False` and the listing returns the raw backend
listing, instead of signalling an unsupported-backend error. -/
theorem azfs_queue_upload_returns_false :
    core_upload_data (fun _ _ => true) (fun _ _ => true)
      "https://testazfs.queue.core.windows.net/test_container/test1.csv".data [7] = .ok false
    ∧ azLs (fun _ _ => ["raw".data])
        "https://testazfs.queue.core.windows.net/test_container/test1.csv".data false =
        .ok ["raw".data] :=
  ⟨by decide, by decide⟩

/-- Witness for C1: the spec's segment-boundary example — `a/*/b.csv` matches
`a/x/b.csv` but not `a/x/y/b.csv`; `glob` returns exactly the matching entry
as an absolute path. -/
theorem azfs_glob_matches_wildcard_spec_witness :
    '*' ∈ "https://testazfs.blob.core.windows.net/test_container/a/*/b.csv".data
    ∧ decodePath "https://testazfs.blob.core.windows.net/test_container/a/*/b.csv".data =
        .ok ⟨"https://testazfs.blob.core.windows.net".data, blobKind,
          "test_container".data, "a/*/b.csv".data⟩
    ∧ rootFolder "a/*/b.csv".data = some "a".data
    ∧ glob (fun _ _ => ["a/x/b.csv".data, "a/x/y/b.csv".data])
        "https://testazfs.blob.core.windows.net/test_container/a/*/b.csv".data =
        .ok ["https://testazfs.blob.core.windows.net/test_container/a/x/b.csv".data] :=
  ⟨by decide, by decide, by decide,
    Eq.trans
      (azfs_glob_matches_wildcard_spec
        (fun _ _ => ["a/x/b.csv".data, "a/x/y/b.csv".data])
        "https://testazfs.blob.core.windows.net/test_container/a/*/b.csv".data
        "https://testazfs.blob.core.windows.net".data blobKind
        "test_container".data "a/*/b.csv".data "a".data
        (by decide) (by decide) (Or.inr rfl) (by decide) (by decide) (by decide))
      (by decide)⟩
